import Mathlib

/-
Verification development for the Ethereum-transactions / Tether-logs Spark
pipeline (src/main.py).  The Python source is shallowly embedded: machine
integers become Nat, Python float / Decimal arithmetic on values derived by
division becomes exact rational arithmetic with the roundings of the source made
explicit, fallible network calls become `Except String`, and the Spark SQL
queries become list-processing functions over the row types that
`main` registers as temporary views.
-/

namespace EthSpark

/-- Bridge between the executable `Rat.floor` and the `⌊·⌋` notation. -/
theorem ratFloor_eq (q : ℚ) : Rat.floor q = ⌊q⌋ :=
  (Rat.floor_def' q).trans Rat.floor_def.symm

/-- Round half to even to an integer, as the Python builtin round does on
Decimal values (the default decimal context).  Used for the rounding of
main.py line 94. -/
def roundHalfEvenInt (x : ℚ) : ℤ :=
  if x - Rat.floor x < 1/2 then Rat.floor x
  else if 1/2 < x - Rat.floor x then Rat.floor x + 1
  else if Rat.floor x % 2 = 0 then Rat.floor x else Rat.floor x + 1

/-- Rounding of a Decimal at `k` decimal places as the Python builtin round
does it: half-even rounding at `k` decimal
places. -/
def roundHalfEven (x : ℚ) (k : ℕ) : ℚ :=
  (roundHalfEvenInt (x * 10 ^ k) : ℚ) / 10 ^ k

/-- Spark SQL ROUND(x, k) (HALF_UP for the non-negative values this
pipeline rounds), used for the display columns of the joined view
(main.py lines 436-439). -/
def sparkRound (x : ℚ) (k : ℕ) : ℚ :=
  (Rat.floor (x * 10 ^ k + 1/2) : ℚ) / 10 ^ k

/-- Conversion factor from Wei to Ether, main.py line 26. -/
def weiToEth : ℕ := 10 ^ 18

/-- Division of a base-unit integer amount by the declared decimal precision:
`w3.from_wei(raw, unit)` is `raw / 10^decimals` (exact; unit mwei has 6). -/
def toDecimalUnits (raw : ℕ) (d : ℕ) : ℚ :=
  (raw : ℚ) / 10 ^ d

/-- The token-value conversion the pipeline actually applies to a raw Tether
amount: from_wei at 6 decimals, then rounded to 2 places (main.py lines 93-95). -/
def tokenValueUsdt (raw : ℕ) : ℚ :=
  roundHalfEven (toDecimalUnits raw 6) 2

/-- Gas-fee computation of main.py line 39: `gas_fee = gas_price * gas_used`. -/
def computeFee (p : ℚ) (g : ℕ) : ℚ := p * (g : ℚ)

/-! The chain client (web3) capability, as consumed by the pipeline. -/

/-- One transaction body as embedded in a fetched block
(`tx` in main.py lines 34-51). -/
structure TxData where
  hash : String
  sender : String
  recipient : Option String
  value : ℕ
  gasPrice : ℕ
deriving DecidableEq

/-- A block as returned by `w3.eth.get_block(n, full_transactions=True)`. -/
structure BlockData where
  timestamp : ℕ
  transactions : List TxData
deriving DecidableEq

/-- A transaction receipt, of which the pipeline reads `gasUsed`. -/
structure Receipt where
  gasUsed : ℕ
deriving DecidableEq

/-- An event-log entry as returned by `w3.eth.get_logs`; topics and data are
byte strings (bytes as naturals below 256). -/
structure LogEntry where
  blockNumber : ℕ
  topics : List (List ℕ)
  data : List ℕ
  transactionHash : String
deriving DecidableEq

/-- The filter request built in main.py lines 77-82. -/
structure LogFilter where
  fromBlock : ℕ
  toBlock : ℕ
  address : String
  topics : List String
deriving DecidableEq

/-- The chain client `w3`: connectivity flag, head block number, and the three
fallible fetch capabilities the pipeline calls. -/
structure Client where
  connected : Bool
  blockNumber : ℕ
  getBlock : ℕ → Except String BlockData
  getReceipt : String → Except String Receipt
  getLogs : LogFilter → Except String (List LogEntry)

/-! Transaction extraction (`get_transactions`, main.py lines 21-67). -/

/-- One normalized transaction record (the dict of main.py lines 41-51). -/
structure TransactionRecord where
  block_number : ℕ
  timestamp : ℕ
  from_address : String
  to_address : Option String
  value : ℚ
  transaction_hash : String
  gas_price : ℚ
  gas_used : ℕ
  gas_fee : ℚ

/-- Error message of main.py line 32 for a failed block fetch. -/
def blockErrMsg (n : ℕ) (e : String) : String :=
  "Error fetching block " ++ toString n ++ ": " ++ e

/-- Error message of main.py line 53 for a failure inside the per-transaction
loop (receipt fetch). -/
def receiptErrMsg (n : ℕ) (e : String) : String :=
  "Error fetching block transactions for block " ++ toString n ++ ": " ++ e

/-- Build one transaction record from block- transaction- and receipt-level
data (main.py lines 37-51). -/
def buildTx (n ts : ℕ) (tx : TxData) (rcpt : Receipt) : TransactionRecord :=
  { block_number := n
    timestamp := ts
    from_address := tx.sender
    to_address := tx.recipient
    value := (tx.value : ℚ) / (weiToEth : ℚ)
    transaction_hash := tx.hash
    gas_price := (tx.gasPrice : ℚ) / (weiToEth : ℚ)
    gas_used := rcpt.gasUsed
    gas_fee := (tx.gasPrice : ℚ) / (weiToEth : ℚ) * (rcpt.gasUsed : ℚ) }

/-- The inner loop of `get_transactions`: fetch the receipt of each transaction in
block order, aborting on the first failure with the line-53 message. -/
def processTxs (c : Client) (n ts : ℕ) : List TxData → Except String (List TransactionRecord)
  | [] => .ok []
  | tx :: rest =>
    match c.getReceipt tx.hash with
    | .error e => .error (receiptErrMsg n e)
    | .ok rcpt =>
      match processTxs c n ts rest with
      | .error e => .error e
      | .ok rs => .ok (buildTx n ts tx rcpt :: rs)

/-- The outer loop of `get_transactions` over a list of block numbers. -/
def processBlocks (c : Client) : List ℕ → Except String (List TransactionRecord)
  | [] => .ok []
  | n :: rest =>
    match c.getBlock n with
    | .error e => .error (blockErrMsg n e)
    | .ok b =>
      match processTxs c n b.timestamp b.transactions with
      | .error e => .error e
      | .ok rs =>
        match processBlocks c rest with
        | .error e => .error e
        | .ok rs2 => .ok (rs ++ rs2)

/-- The inclusive block range `range(from_block, latest_block + 1)`. -/
def blockRange (fromBlock latestBlock : ℕ) : List ℕ :=
  List.range' fromBlock (latestBlock + 1 - fromBlock)

/-- Embedding of `get_transactions(w3, from_block, latest_block, spark)` minus
the Spark DataFrame wrapping: the list of records it assembles, or the raised error. -/
def getTransactions (c : Client) (fromBlock latestBlock : ℕ) :
    Except String (List TransactionRecord) :=
  processBlocks c (blockRange fromBlock latestBlock)

/-! Tether transfer-log extraction (`get_logs_tether`, main.py lines 69-120). -/

/-- One normalized transfer-log record (the dict of main.py lines 98-105).
Every field is set at construction; none is optional. -/
structure TransferLogRecord where
  block_number : ℕ
  timestamp : ℕ
  from_address : String
  to_address : String
  value_usdt : ℚ
  transaction_hash : String

/-- Lowercase hex digit, as the Python bytes.hex method produces. -/
def hexDigit (n : ℕ) : Char :=
  if n < 10 then Char.ofNat (48 + n) else Char.ofNat (87 + n)

/-- The two hex characters of one byte (`%02x`; the `% 16` totalizes the
high digit for naturals at or above 256, which valid bytes never are). -/
def byteHex (b : ℕ) : List Char :=
  [hexDigit (b / 16 % 16), hexDigit (b % 16)]

/-- Hex encoding of a byte string — `HexBytes.hex()` without the `0x`. -/
def bytesHex (bs : List ℕ) : List Char :=
  bs.flatMap byteHex

/-- The last `n` characters of a character list — the Python slice `s[-n:]`
(the whole string when it is shorter than `n`). -/
def lastChars (n : ℕ) (cs : List Char) : List Char :=
  cs.drop (cs.length - n)

/-- Address decoding of main.py lines 101-102:
`"0x" + topic.hex()[-40:]`. -/
def topicAddress (t : List ℕ) : String :=
  "0x" ++ String.mk (lastChars 40 (bytesHex t))

/-- Big-endian integer parse of a byte string, the int.from_bytes call of
main.py line 93. -/
def bytesBE (bs : List ℕ) : ℕ :=
  bs.foldl (fun acc b => acc * 256 + b) 0

/-- The Tether contract address constant of main.py line 74. -/
def tetherAddress : String := "0xdAC17F958D2ee523a2206206994597C13D831ec7"

/-- Transfer event signature topic of main.py line 75: 0x followed by the
keccak-256 digest of the event signature string, precomputed here. -/
def transferEventSignature : String :=
  "0xddf252ad1be2c89b69c2b068fc378daa952ba7f163c4a11628f55a4df523b3ef"

/-- Error message of main.py line 87 for a failed filter query. -/
def logsErrMsg (e : String) : String :=
  "Error fetching logs: " ++ e

/-- Error message of main.py line 109 for a failure while processing one log. -/
def logProcErrMsg (h : String) (e : String) : String :=
  "Error processing log " ++ h ++ ": " ++ e

/-- Decode one log (the loop body of main.py lines 91-107): parse the data
payload big-endian and convert it to a 2-decimal USDT amount, resolve the
timestamp of the containing block with a second client call, and take the low
20 bytes of topics 1 and 2 as sender and receiver addresses. -/
def decodeLog (c : Client) (log : LogEntry) : Except String TransferLogRecord :=
  match c.getBlock log.blockNumber with
  | .error e => .error (logProcErrMsg log.transactionHash e)
  | .ok blk =>
    match log.topics with
    | _t0 :: t1 :: t2 :: _ =>
      .ok { block_number := log.blockNumber
            timestamp := blk.timestamp
            from_address := topicAddress t1
            to_address := topicAddress t2
            value_usdt := tokenValueUsdt (bytesBE log.data)
            transaction_hash := log.transactionHash }
    | _ => .error (logProcErrMsg log.transactionHash "list index out of range")

/-- Decode every fetched log in order, aborting on the first failure. -/
def processLogs (c : Client) : List LogEntry → Except String (List TransferLogRecord)
  | [] => .ok []
  | log :: rest =>
    match decodeLog c log with
    | .error e => .error e
    | .ok r =>
      match processLogs c rest with
      | .error e => .error e
      | .ok rs => .ok (r :: rs)

/-- Embedding of `get_logs_tether(w3, from_block, latest_block, spark)` minus
the Spark DataFrame wrapping: issue the single filter query and decode each log. -/
def getLogsTether (c : Client) (fromBlock latestBlock : ℕ) :
    Except String (List TransferLogRecord) :=
  match c.getLogs { fromBlock := fromBlock, toBlock := latestBlock,
                    address := tetherAddress,
                    topics := [transferEventSignature] } with
  | .error e => .error (logsErrMsg e)
  | .ok logs => processLogs c logs

/-! The joined view `df_transactions_complete` (main.py lines 428-449) and the
filtered view `df_logs_tether_clean` (lines 452-457). -/

/-- Model of from_utc_timestamp(FROM_UNIXTIME(u), Europe/Madrid): a
deterministic, injective presentation of the raw epoch seconds in a fixed
time zone.  The calendar rendering belongs to the query engine; only its
injectivity matters to the queries, so it is modelled as a tagged copy of the
epoch value. -/
structure MadridTime where
  utc : ℕ
deriving DecidableEq

/-- One row of `df_transactions_complete` (the SELECT of main.py
lines 429-442): join-key and raw columns, rounded display columns, and the
three token-side columns, which are null when no log matched. -/
structure UnifiedRow where
  block_number : ℕ
  unix_timestamp : ℕ
  timestamp : MadridTime
  transaction_hash : String
  tx_from_address : String
  tx_to_address : Option String
  tx_value_eth : ℚ
  tx_gas_price_eth : ℚ
  tx_gas_used : ℕ
  tx_gas_fee_eth : ℚ
  log_from_address : Option String
  log_to_address : Option String
  log_value_usdt : Option ℚ

/-- Assemble one output row from a transaction record and the matched log
record, if any (the SELECT list of main.py lines 429-442). -/
def mkURow (t : TransactionRecord) (l : Option TransferLogRecord) : UnifiedRow :=
  { block_number := t.block_number
    unix_timestamp := t.timestamp
    timestamp := ⟨t.timestamp⟩
    transaction_hash := t.transaction_hash
    tx_from_address := t.from_address
    tx_to_address := t.to_address
    tx_value_eth := sparkRound t.value 2
    tx_gas_price_eth := sparkRound t.gas_price 12
    tx_gas_used := t.gas_used
    tx_gas_fee_eth := sparkRound t.gas_fee 12
    log_from_address := l.map (fun x => x.from_address)
    log_to_address := l.map (fun x => x.to_address)
    log_value_usdt := l.map (fun x => x.value_usdt) }

/-- The logs matching one transaction under the join condition of main.py
lines 445-447: equal transaction hash, block number and timestamp. -/
def logMatches (ls : List TransferLogRecord) (t : TransactionRecord) :
    List TransferLogRecord :=
  ls.filter fun l =>
    decide (l.transaction_hash = t.transaction_hash ∧
            l.block_number = t.block_number ∧ l.timestamp = t.timestamp)

/-- The unified rows produced by one transaction record: one row per matching
log, or a single row with null token-side columns when nothing matches. -/
def joinRows (ls : List TransferLogRecord) (t : TransactionRecord) : List UnifiedRow :=
  match logMatches ls t with
  | [] => [mkURow t none]
  | m :: ms => (m :: ms).map fun l => mkURow t (some l)

/-- The LEFT JOIN of main.py lines 428-448 over in-memory rows. -/
def leftJoin (ts : List TransactionRecord) (ls : List TransferLogRecord) :
    List UnifiedRow :=
  ts.flatMap (joinRows ls)

/-- Embedding of df_logs_tether_clean (main.py lines 452-457):
`WHERE log_value_usdt IS NOT NULL`. -/
def tokenOnly (rows : List UnifiedRow) : List UnifiedRow :=
  rows.filter fun r => r.log_value_usdt.isSome

/-! Analytics queries (those the claims touch). -/

/-- Stable insertion of one element: `x` goes before the first element `y`
with `le x y`. -/
def insertOrd {α : Type} (le : α → α → Bool) (x : α) : List α → List α
  | [] => [x]
  | y :: ys => if le x y then x :: y :: ys else y :: insertOrd le x ys

/-- Stable sort by the boolean relation `le` (insertion sort): the query
engine ORDER BY with ties left in input order. -/
def orderBy {α : Type} (le : α → α → Bool) : List α → List α
  | [] => []
  | x :: xs => insertOrd le x (orderBy le xs)

/-- Comparison used by `ORDER BY tx_value_eth DESC`: `a` may precede `b`
when its display value is at least that of `b`. -/
def rowLE (a b : UnifiedRow) : Bool :=
  decide (b.tx_value_eth ≤ a.tx_value_eth)

/-- The top-10-by-value query of main.py lines 135-146:
`ORDER BY tx_value_eth DESC LIMIT 10` over `df_transactions_complete`. -/
def txValueTop10 (rows : List UnifiedRow) : List UnifiedRow :=
  (orderBy rowLE rows).take 10

/-- One row of the `grouped_data` CTE (main.py lines 232-240). -/
structure GroupRow where
  block_number : ℕ
  timestamp : MadridTime
  unix_timestamp : ℕ
deriving DecidableEq

/-- Ordering of the grouped rows: `ORDER BY block_number, timestamp`. -/
def keyLE (a b : ℕ × MadridTime) : Bool :=
  decide (a.1 < b.1) || (decide (a.1 = b.1) && decide (a.2.utc ≤ b.2.utc))

/-- Aggregate MAX(unix_timestamp) over one (block_number, timestamp) group. -/
def groupMax (rows : List UnifiedRow) (k : ℕ × MadridTime) : ℕ :=
  ((rows.filter fun r =>
      decide (r.block_number = k.1 ∧ r.timestamp = k.2)).map
    fun r => r.unix_timestamp).foldl max 0

/-- The `grouped_data` CTE: GROUP BY (block_number, timestamp) taking the max
epoch timestamp per group, ordered by block number then timestamp. -/
def groupedData (rows : List UnifiedRow) : List GroupRow :=
  (orderBy keyLE ((rows.map fun r => (r.block_number, r.timestamp)).dedup)).map
    fun k => { block_number := k.1, timestamp := k.2, unix_timestamp := groupMax rows k }

/-- One row of the final time-between-blocks result (main.py lines 249-255). -/
structure DiffRow where
  block_number : ℕ
  timestamp : MadridTime
  unix_timestamp : ℕ
  unix_prev_timestamp : Option ℕ
  time_diff_in_seconds : ℤ
deriving DecidableEq

/-- Window LAG(unix_timestamp) OVER (ORDER BY block_number) threaded down the
ordered group rows, with `COALESCE(unix_timestamp - unix_prev_timestamp, 0)`. -/
def lagRows : List GroupRow → Option ℕ → List DiffRow
  | [], _ => []
  | g :: rest, prev =>
    { block_number := g.block_number
      timestamp := g.timestamp
      unix_timestamp := g.unix_timestamp
      unix_prev_timestamp := prev
      time_diff_in_seconds :=
        match prev with
        | none => 0
        | some p => (g.unix_timestamp : ℤ) - (p : ℤ) }
    :: lagRows rest (some g.unix_timestamp)

/-- The `time_between_blocks` query of main.py lines 231-256. -/
def timeBetweenBlocks (rows : List UnifiedRow) : List DiffRow :=
  lagRows (groupedData rows) none

/-- The anomaly query of main.py lines 262-270:
`WHERE time_diff_in_seconds > 12` over `block_times`. -/
def blockTimesMonitoring (rows : List UnifiedRow) : List DiffRow :=
  (timeBetweenBlocks rows).filter fun d => decide (12 < d.time_diff_in_seconds)

/-- The all-zero address literal of main.py lines 394-395. -/
def zeroAddress : String := "0x0000000000000000000000000000000000000000"

/-- SQL `col = lit` under three-valued logic: false (not selected) on NULL. -/
def sqlEq (o : Option String) (z : String) : Bool :=
  match o with
  | some f => decide (f = z)
  | none => false

/-- SQL `col != lit` under three-valued logic: false (not selected) on NULL. -/
def sqlNe (o : Option String) (z : String) : Bool :=
  match o with
  | some f => decide (¬ f = z)
  | none => false

/-- The burn-count query of main.py lines 391-398 over `df_logs_tether_clean`:
receiver is the all-zero address and sender is not. -/
def burnCount (rows : List UnifiedRow) : ℕ :=
  (rows.filter fun r =>
    sqlEq r.log_to_address zeroAddress && sqlNe r.log_from_address zeroAddress).length

/-! The entry point `main` (main.py lines 402-473). -/

/-- The two derived datasets `main` registers and queries. -/
structure PipelineOut where
  unified : List UnifiedRow
  tokenRows : List UnifiedRow

/-- Everything `main` does after the connectivity check (main.py
lines 416-457): pick the 10-block range ending at the chain head, run both
extractors, join, and filter. -/
def runPipeline (c : Client) : Except String PipelineOut :=
  match getTransactions c (c.blockNumber - 9) c.blockNumber with
  | .error e => .error e
  | .ok ts =>
    match getLogsTether c (c.blockNumber - 9) c.blockNumber with
    | .error e => .error e
    | .ok ls =>
      .ok { unified := leftJoin ts ls, tokenRows := tokenOnly (leftJoin ts ls) }

/-- The status line printed by main.py lines 410-413. -/
def connectivityLine (c : Client) : String :=
  if c.connected then "✅ Connected to Ethereum\n" else "❌ Connection failed\n"

/-- Observable behaviour of `main` up to the registered datasets: the status
line, and the pipeline run that follows it unconditionally. -/
def runMain (c : Client) : String × Except String PipelineOut :=
  (connectivityLine c, runPipeline c)

/-! Substring occurrence, used to state that an error message does or does not
mention an identifier. -/

/-- Check that `p` is an initial segment of the second list. -/
def charsStart : List Char → List Char → Bool
  | [], _ => true
  | _ :: _, [] => false
  | p :: ps, c :: cs => p == c && charsStart ps cs

/-- Check that `pat` occurs contiguously somewhere in the second list. -/
def charsSub (pat : List Char) : List Char → Bool
  | [] => charsStart pat []
  | l@(_ :: cs) => charsStart pat l || charsSub pat cs

/-- String `s` mentions `pat` as a contiguous substring. -/
def strMentions (s pat : String) : Bool :=
  charsSub pat.data s.data

/-! Concrete data used by the scenario claims and the witnesses. -/

/-- Synthetic transaction for the time-between-blocks scenario. -/
def c4Tx (n ts : ℕ) (h : String) : TransactionRecord :=
  { block_number := n, timestamp := ts, from_address := "0xS", to_address := none,
    value := 0, transaction_hash := h, gas_price := 0, gas_used := 0, gas_fee := 0 }

/-- Unified rows for four synthetic blocks with epoch timestamps
100, 105, 130, 131 and no token transfers. -/
def c4Rows : List UnifiedRow :=
  leftJoin [c4Tx 1 100 "0xa", c4Tx 2 105 "0xb", c4Tx 3 130 "0xc", c4Tx 4 131 "0xd"] []

/-- First transaction of the top-10 scenario: raw native value 5.001. -/
def cT1 : TransactionRecord :=
  { block_number := 1, timestamp := 100, from_address := "0xS1", to_address := none,
    value := 5001/1000, transaction_hash := "0xh1", gas_price := 0, gas_used := 0,
    gas_fee := 0 }

/-- Second transaction of the top-10 scenario: raw native value 5.004. -/
def cT2 : TransactionRecord :=
  { block_number := 1, timestamp := 100, from_address := "0xS2", to_address := none,
    value := 5004/1000, transaction_hash := "0xh2", gas_price := 0, gas_used := 0,
    gas_fee := 0 }

/-- Unified rows of the top-10 scenario. -/
def c5Rows : List UnifiedRow := leftJoin [cT1, cT2] []

/-- Transactions of the burn-count scenario. -/
def burnTxs : List TransactionRecord :=
  [ { block_number := 1, timestamp := 100, from_address := "0xS", to_address := none,
      value := 0, transaction_hash := "0xh1", gas_price := 0, gas_used := 0, gas_fee := 0 },
    { block_number := 1, timestamp := 100, from_address := "0xS", to_address := none,
      value := 0, transaction_hash := "0xh2", gas_price := 0, gas_used := 0, gas_fee := 0 } ]

/-- Transfer logs of the burn-count scenario: a burn from 0xAAA to the zero
address and a self-transfer at the zero address. -/
def burnLogs : List TransferLogRecord :=
  [ { block_number := 1, timestamp := 100, from_address := "0xAAA",
      to_address := zeroAddress, value_usdt := 5, transaction_hash := "0xh1" },
    { block_number := 1, timestamp := 100, from_address := zeroAddress,
      to_address := zeroAddress, value_usdt := 5, transaction_hash := "0xh2" } ]

/-- A transaction body used by the witness client. -/
def txW : TxData :=
  { hash := "0xt1", sender := "0xS", recipient := none,
    value := 2 * 10 ^ 18, gasPrice := 10 ^ 9 }

/-- A client on which every fetch succeeds: one block holding one transaction. -/
def okClient : Client :=
  { connected := true, blockNumber := 0,
    getBlock := fun _ => .ok { timestamp := 100, transactions := [txW] },
    getReceipt := fun _ => .ok { gasUsed := 21000 },
    getLogs := fun _ => .ok [] }

/-- The transaction record extracted from `okClient`. -/
def recW : TransactionRecord := buildTx 0 100 txW { gasUsed := 21000 }

/-- A client whose block fetches fail. -/
def failClient : Client :=
  { connected := true, blockNumber := 0,
    getBlock := fun _ => .error "netfail",
    getReceipt := fun _ => .error "netfail",
    getLogs := fun _ => .error "netfail" }

/-- The transaction whose receipt fetch fails in the receipt-error scenario. -/
def rcptTx : TxData :=
  { hash := "0xAAAAAAAA", sender := "0xS", recipient := none, value := 0, gasPrice := 0 }

/-- A client on which block fetches succeed but every receipt fetch fails. -/
def rcptFailClient : Client :=
  { connected := true, blockNumber := 0,
    getBlock := fun _ => .ok { timestamp := 100, transactions := [rcptTx] },
    getReceipt := fun _ => .error "boom",
    getLogs := fun _ => .ok [] }

/-- A 32-byte all-zero topic. -/
def cexTopicZero : List ℕ := List.replicate 32 0

/-- A transfer log whose data payload is the single byte 0x01 (raw amount 1,
one millionth of a USDT). -/
def cexLog8 : LogEntry :=
  { blockNumber := 0, topics := [[], cexTopicZero, cexTopicZero],
    data := [1], transactionHash := "0xlog1" }

/-- A client returning exactly the log `cexLog8`. -/
def cexClient8 : Client :=
  { connected := true, blockNumber := 0,
    getBlock := fun _ => .ok { timestamp := 100, transactions := [] },
    getReceipt := fun _ => .ok { gasUsed := 0 },
    getLogs := fun _ => .ok [cexLog8] }

/-- The record `get_logs_tether` produces from `cexLog8`: the stored value is
0, not the exact scaled amount 1/10^6. -/
def cexRec8 : TransferLogRecord :=
  { block_number := 0, timestamp := 100, from_address := zeroAddress,
    to_address := zeroAddress, value_usdt := 0, transaction_hash := "0xlog1" }

/-- Topic 1 of the decoding witness: 12 leading zero bytes, 20 bytes 0xaa. -/
def t1W : List ℕ := List.replicate 12 0 ++ List.replicate 20 170

/-- Topic 2 of the decoding witness: 12 leading 0xff bytes, 20 bytes 0xbb. -/
def t2W : List ℕ := List.replicate 12 255 ++ List.replicate 20 187

/-- The log of the decoding witness. -/
def logW : LogEntry :=
  { blockNumber := 7, topics := [[], t1W, t2W], data := [0, 1],
    transactionHash := "0xlogW" }

/-- The client of the decoding witness. -/
def clientW8 : Client :=
  { connected := true, blockNumber := 0,
    getBlock := fun _ => .ok { timestamp := 500, transactions := [] },
    getReceipt := fun _ => .ok { gasUsed := 0 },
    getLogs := fun _ => .ok [logW] }

/-- A disconnected client whose data fetches nevertheless succeed. -/
def dcClient : Client :=
  { connected := false, blockNumber := 9,
    getBlock := fun _ => .ok { timestamp := 100, transactions := [] },
    getReceipt := fun _ => .ok { gasUsed := 0 },
    getLogs := fun _ => .ok [] }

/-! Theorems. -/

/-- Half-even rounding leaves an integer value unchanged. -/
theorem roundHalfEvenInt_natCast (k : ℕ) : roundHalfEvenInt ((k : ℕ) : ℚ) = (k : ℤ) := by
  have hf : Rat.floor ((k : ℕ) : ℚ) = (k : ℤ) := by
    rw [ratFloor_eq]
    exact_mod_cast Int.floor_natCast k
  unfold roundHalfEvenInt
  rw [hf]
  norm_num

/-- The implemented token conversion collapses one raw base unit to zero. -/
theorem tokenValueUsdt_one : tokenValueUsdt 1 = 0 := by
  have h1 : toDecimalUnits 1 6 * 10 ^ 2 = 1 / 10 ^ 4 := by
    unfold toDecimalUnits
    norm_num
  have h2 : roundHalfEvenInt (1 / 10 ^ 4 : ℚ) = 0 := by
    have hf : Rat.floor (1 / 10 ^ 4 : ℚ) = 0 := by
      rw [ratFloor_eq]
      norm_num
    unfold roundHalfEvenInt
    rw [hf]
    norm_num
  unfold tokenValueUsdt roundHalfEven
  rw [h1, h2]
  norm_num

/-- C2, counterexample: at rawAmount 1 (and declared precision d = 6) the
token-value conversion implemented by the pipeline (division by 10^6 followed
by rounding to 2 decimal places, main.py lines 93-95) does not round-trip:
`tokenValueUsdt 1 * 10^6 = 0`, not 1. -/
theorem tokenValue_roundtrip_cex_c2 : tokenValueUsdt 1 * 10 ^ 6 ≠ ((1 : ℕ) : ℚ) := by
  rw [tokenValueUsdt_one]
  norm_num

/-- C2, amended: the bare base-unit division `from_wei` is the exact
multiplicative inverse of the base-unit representation at any precision
(`toDecimalUnits raw d * 10^d = raw`), but the token-value conversion the
pipeline applies additionally rounds to 2 decimal places, so the round-trip
at the declared precision 6 holds exactly when the raw amount is a
multiple of 10^4. -/
theorem tokenValue_roundtrip_amended_c2 :
    (∀ (raw d : ℕ), toDecimalUnits raw d * 10 ^ d = (raw : ℚ)) ∧
    (∀ raw : ℕ, 10 ^ 4 ∣ raw → tokenValueUsdt raw * 10 ^ 6 = (raw : ℚ)) := by
  constructor
  · intro raw d
    have h : ((10 : ℚ) ^ d) ≠ 0 := by positivity
    field_simp [toDecimalUnits]
  · rintro raw ⟨k, rfl⟩
    have h1 : toDecimalUnits (10 ^ 4 * k) 6 * 10 ^ 2 = ((k : ℕ) : ℚ) := by
      unfold toDecimalUnits
      push_cast
      field_simp
      ring
    unfold tokenValueUsdt roundHalfEven
    rw [h1, roundHalfEvenInt_natCast]
    push_cast
    field_simp
    ring

/-- C2 witness: the amended round-trip at the concrete inputs 7 (precision 3)
and 30000 (a multiple of 10^4). -/
theorem tokenValue_roundtrip_amended_c2_witness :
    toDecimalUnits 7 3 * 10 ^ 3 = ((7 : ℕ) : ℚ) ∧
    tokenValueUsdt 30000 * 10 ^ 6 = ((30000 : ℕ) : ℚ) :=
  ⟨tokenValue_roundtrip_amended_c2.1 7 3,
   tokenValue_roundtrip_amended_c2.2 30000 ⟨3, by norm_num⟩⟩

/-- Every record emitted by the inner extraction loop satisfies the gas-fee
equation. -/
theorem processTxs_fee (c : Client) (n ts : ℕ) :
    ∀ (txs : List TxData) (rs : List TransactionRecord),
      processTxs c n ts txs = .ok rs →
      ∀ r ∈ rs, r.gas_fee = r.gas_price * (r.gas_used : ℚ) := by
  intro txs
  induction txs with
  | nil =>
    intro rs h r hr
    simp only [processTxs, Except.ok.injEq] at h
    subst h
    simp at hr
  | cons tx rest ih =>
    intro rs h r hr
    cases hg : c.getReceipt tx.hash with
    | error e => simp [processTxs, hg] at h
    | ok rcpt =>
      cases hrest : processTxs c n ts rest with
      | error e => simp [processTxs, hg, hrest] at h
      | ok rs2 =>
        simp only [processTxs, hg, hrest, Except.ok.injEq] at h
        subst h
        rcases List.mem_cons.1 hr with rfl | hmem
        · rfl
        · exact ih rs2 hrest r hmem

/-- Every record emitted by the outer extraction loop satisfies the gas-fee
equation. -/
theorem processBlocks_fee (c : Client) :
    ∀ (ns : List ℕ) (rs : List TransactionRecord),
      processBlocks c ns = .ok rs →
      ∀ r ∈ rs, r.gas_fee = r.gas_price * (r.gas_used : ℚ) := by
  intro ns
  induction ns with
  | nil =>
    intro rs h r hr
    simp only [processBlocks, Except.ok.injEq] at h
    subst h
    simp at hr
  | cons n rest ih =>
    intro rs h r hr
    cases hb : c.getBlock n with
    | error e => simp [processBlocks, hb] at h
    | ok b =>
      cases htx : processTxs c n b.timestamp b.transactions with
      | error e => simp [processBlocks, hb, htx] at h
      | ok rs1 =>
        cases hrest : processBlocks c rest with
        | error e => simp [processBlocks, hb, htx, hrest] at h
        | ok rs2 =>
          simp only [processBlocks, hb, htx, hrest, Except.ok.injEq] at h
          subst h
          rcases List.mem_append.1 hr with hmem | hmem
          · exact processTxs_fee c n b.timestamp b.transactions rs1 htx r hmem
          · exact ih rs2 hrest r hmem

/-- C6: every transaction record the extractor emits satisfies
`gas_fee = gas_price * gas_used` (the assignment of main.py line 39), and the
fee computation is multiplication, non-negative on non-negative prices. -/
theorem gasFee_invariant_c6 :
    (∀ (c : Client) (a b : ℕ) (recs : List TransactionRecord) (r : TransactionRecord),
      getTransactions c a b = .ok recs → r ∈ recs →
      r.gas_fee = computeFee r.gas_price r.gas_used ∧
      r.gas_fee = r.gas_price * (r.gas_used : ℚ)) ∧
    (∀ (p : ℚ) (g : ℕ), 0 ≤ p → computeFee p g = p * (g : ℚ) ∧ 0 ≤ computeFee p g) := by
  constructor
  · intro c a b recs r h hr
    have hfee := processBlocks_fee c (blockRange a b) recs h r hr
    exact ⟨hfee, hfee⟩
  · intro p g hp
    exact ⟨rfl, mul_nonneg hp (by positivity)⟩

/-- C6 witness: the invariant at the concrete record extracted from
`okClient`, and the fee computation at price 3/2 with 21000 gas. -/
theorem gasFee_invariant_c6_witness :
    (recW.gas_fee = computeFee recW.gas_price recW.gas_used ∧
      recW.gas_fee = recW.gas_price * (recW.gas_used : ℚ)) ∧
    (computeFee (3/2) 21000 = (3/2 : ℚ) * (21000 : ℚ) ∧ (0 : ℚ) ≤ computeFee (3/2) 21000) :=
  ⟨gasFee_invariant_c6.1 okClient 0 0 [recW] recW rfl (List.mem_singleton.mpr rfl),
   gasFee_invariant_c6.2 (3/2) 21000 (by norm_num)⟩

/-- A list is an initial segment of itself followed by anything. -/
theorem charsStart_append (p t : List Char) : charsStart p (p ++ t) = true := by
  induction p with
  | nil => rfl
  | cons a ps ih => simp [charsStart, ih]

/-- An initial segment occurs as a substring. -/
theorem charsSub_of_start (p l : List Char) (h : charsStart p l = true) :
    charsSub p l = true := by
  cases l with
  | nil => simpa [charsSub] using h
  | cons c cs => simp [charsSub, h]

/-- Substring occurrence is stable under prepending a character. -/
theorem charsSub_cons (p : List Char) (c : Char) (cs : List Char)
    (h : charsSub p cs = true) : charsSub p (c :: cs) = true := by
  simp [charsSub, h]

/-- A pattern occurs in any list that contains it contiguously. -/
theorem charsSub_append (x p y : List Char) : charsSub p (x ++ (p ++ y)) = true := by
  induction x with
  | nil => exact charsSub_of_start _ _ (charsStart_append p y)
  | cons c cs ih => exact charsSub_cons _ _ _ ih

/-- Character data of a string concatenation. -/
theorem strData_append (a b : String) : (a ++ b).data = a.data ++ b.data := by
  cases a
  cases b
  rfl

/-- The block-fetch error message mentions the failing block number. -/
theorem blockErrMsg_mentions (n : ℕ) (e : String) :
    strMentions (blockErrMsg n e) (toString n) = true := by
  unfold strMentions blockErrMsg
  rw [strData_append, strData_append, strData_append, List.append_assoc,
    List.append_assoc]
  exact charsSub_append _ _ _

/-- The receipt-fetch error message mentions the failing block number. -/
theorem receiptErrMsg_mentions (n : ℕ) (e : String) :
    strMentions (receiptErrMsg n e) (toString n) = true := by
  unfold strMentions receiptErrMsg
  rw [strData_append, strData_append, strData_append, List.append_assoc,
    List.append_assoc]
  exact charsSub_append _ _ _

/-- A successful inner loop implies every receipt fetch succeeded. -/
theorem processTxs_ok_receipts (c : Client) (n ts : ℕ) :
    ∀ (txs : List TxData) (rs : List TransactionRecord),
      processTxs c n ts txs = .ok rs →
      ∀ tx ∈ txs, ∃ rc, c.getReceipt tx.hash = .ok rc := by
  intro txs
  induction txs with
  | nil => intro rs _ tx htx; simp at htx
  | cons tx rest ih =>
    intro rs h tx2 htx2
    cases hg : c.getReceipt tx.hash with
    | error e => simp [processTxs, hg] at h
    | ok rcpt =>
      cases hrest : processTxs c n ts rest with
      | error e => simp [processTxs, hg, hrest] at h
      | ok rs2 =>
        rcases List.mem_cons.1 htx2 with rfl | hmem
        · exact ⟨rcpt, hg⟩
        · exact ih rs2 hrest tx2 hmem

/-- A failing inner loop fails on some receipt fetch, with the line-53
message built from the block number and the underlying cause. -/
theorem processTxs_error_char (c : Client) (n ts : ℕ) :
    ∀ (txs : List TxData) (msg : String), processTxs c n ts txs = .error msg →
      ∃ tx ∈ txs, ∃ e, c.getReceipt tx.hash = .error e ∧ msg = receiptErrMsg n e := by
  intro txs
  induction txs with
  | nil => intro msg h; simp [processTxs] at h
  | cons tx rest ih =>
    intro msg h
    cases hg : c.getReceipt tx.hash with
    | error e =>
      simp only [processTxs, hg, Except.error.injEq] at h
      exact ⟨tx, List.mem_cons_self tx rest, e, hg, h.symm⟩
    | ok rcpt =>
      cases hrest : processTxs c n ts rest with
      | error e2 =>
        simp only [processTxs, hg, hrest, Except.error.injEq] at h
        subst h
        obtain ⟨tx2, htx2, e, he, hmsg⟩ := ih e2 hrest
        exact ⟨tx2, List.mem_cons_of_mem tx htx2, e, he, hmsg⟩
      | ok rs => simp [processTxs, hg, hrest] at h

/-- A successful outer loop implies every block fetch and every receipt fetch
in the range succeeded. -/
theorem processBlocks_ok_char (c : Client) :
    ∀ (ns : List ℕ) (rs : List TransactionRecord), processBlocks c ns = .ok rs →
      ∀ n ∈ ns, ∃ b, c.getBlock n = .ok b ∧
        ∀ tx ∈ b.transactions, ∃ rc, c.getReceipt tx.hash = .ok rc := by
  intro ns
  induction ns with
  | nil => intro rs _ n hn; simp at hn
  | cons n rest ih =>
    intro rs h n2 hn2
    cases hb : c.getBlock n with
    | error e => simp [processBlocks, hb] at h
    | ok b =>
      cases htx : processTxs c n b.timestamp b.transactions with
      | error e => simp [processBlocks, hb, htx] at h
      | ok rs1 =>
        cases hrest : processBlocks c rest with
        | error e => simp [processBlocks, hb, htx, hrest] at h
        | ok rs2 =>
          rcases List.mem_cons.1 hn2 with rfl | hmem
          · exact ⟨b, hb, processTxs_ok_receipts c n2 b.timestamp b.transactions rs1 htx⟩
          · exact ih rs2 hrest n2 hmem

/-- A failing outer loop fails on some block in the list, either at the block
fetch (line-32 message) or at a receipt fetch inside it (line-53 message). -/
theorem processBlocks_error_char (c : Client) :
    ∀ (ns : List ℕ) (msg : String), processBlocks c ns = .error msg →
      ∃ n ∈ ns,
        (∃ e, c.getBlock n = .error e ∧ msg = blockErrMsg n e) ∨
        (∃ b, c.getBlock n = .ok b ∧ ∃ tx ∈ b.transactions, ∃ e,
          c.getReceipt tx.hash = .error e ∧ msg = receiptErrMsg n e) := by
  intro ns
  induction ns with
  | nil => intro msg h; simp [processBlocks] at h
  | cons n rest ih =>
    intro msg h
    cases hb : c.getBlock n with
    | error e =>
      simp only [processBlocks, hb, Except.error.injEq] at h
      exact ⟨n, List.mem_cons_self n rest, Or.inl ⟨e, hb, h.symm⟩⟩
    | ok b =>
      cases htx : processTxs c n b.timestamp b.transactions with
      | error e2 =>
        simp only [processBlocks, hb, htx, Except.error.injEq] at h
        subst h
        obtain ⟨tx, htxm, e, he, hmsg⟩ := processTxs_error_char c n b.timestamp b.transactions e2 htx
        exact ⟨n, List.mem_cons_self n rest, Or.inr ⟨b, hb, tx, htxm, e, he, hmsg⟩⟩
      | ok rs1 =>
        cases hrest : processBlocks c rest with
        | error e3 =>
          simp only [processBlocks, hb, htx, hrest, Except.error.injEq] at h
          subst h
          obtain ⟨n2, hn2, hcase⟩ := ih e3 hrest
          exact ⟨n2, List.mem_cons_of_mem n hn2, hcase⟩
        | ok rs2 => simp [processBlocks, hb, htx, hrest] at h

/-- C3 (amended): extraction is fail-fast with no partial results — a
successful run certifies every block and receipt fetch in the range
succeeded, and a failing run aborts with an error naming the failing block
number both for block-fetch and for receipt-fetch failures, wrapping the
underlying cause.  (The receipt-failure error does not name the failing
transaction; see the counterexample.) -/
theorem getTransactions_failfast_c3 (c : Client) (fromB latestB : ℕ) :
    (∀ recs, getTransactions c fromB latestB = .ok recs →
      ∀ n ∈ blockRange fromB latestB, ∃ b, c.getBlock n = .ok b ∧
        ∀ tx ∈ b.transactions, ∃ rc, c.getReceipt tx.hash = .ok rc) ∧
    (∀ msg, getTransactions c fromB latestB = .error msg →
      ∃ n ∈ blockRange fromB latestB,
        ((∃ e, c.getBlock n = .error e ∧ msg = blockErrMsg n e) ∨
         (∃ b, c.getBlock n = .ok b ∧ ∃ tx ∈ b.transactions, ∃ e,
            c.getReceipt tx.hash = .error e ∧ msg = receiptErrMsg n e)) ∧
        strMentions msg (toString n) = true) := by
  constructor
  · intro recs h n hn
    exact processBlocks_ok_char c (blockRange fromB latestB) recs h n hn
  · intro msg h
    obtain ⟨n, hn, hcase⟩ := processBlocks_error_char c (blockRange fromB latestB) msg h
    refine ⟨n, hn, hcase, ?_⟩
    rcases hcase with ⟨e, _, rfl⟩ | ⟨b, _, tx, _, e, _, rfl⟩
    · exact blockErrMsg_mentions n e
    · exact receiptErrMsg_mentions n e

/-- C3, counterexample: on a client whose receipt fetch for transaction
0xAAAAAAAA fails with the opaque cause "boom", the raised error is the
line-53 message, which does not mention the failing transaction at all —
it identifies only the block number and the underlying cause. -/
theorem receiptError_no_tx_cex_c3 :
    getTransactions rcptFailClient 5 5 = .error (receiptErrMsg 5 "boom") ∧
    rcptTx.hash = "0xAAAAAAAA" ∧
    strMentions (receiptErrMsg 5 "boom") "0xAAAAAAAA" = false := by
  refine ⟨rfl, rfl, ?_⟩
  decide

/-- C3 witness: the fail-fast characterization applied to a fully succeeding
client at block 0 and to a client whose block-2 fetch fails. -/
theorem getTransactions_failfast_c3_witness :
    (∃ b, okClient.getBlock 0 = .ok b ∧
      ∀ tx ∈ b.transactions, ∃ rc, okClient.getReceipt tx.hash = .ok rc) ∧
    (∃ n ∈ blockRange 2 2,
      ((∃ e, failClient.getBlock n = .error e ∧
          blockErrMsg 2 "netfail" = blockErrMsg n e) ∨
       (∃ b, failClient.getBlock n = .ok b ∧ ∃ tx ∈ b.transactions, ∃ e,
          failClient.getReceipt tx.hash = .error e ∧
          blockErrMsg 2 "netfail" = receiptErrMsg n e)) ∧
      strMentions (blockErrMsg 2 "netfail") (toString n) = true) :=
  ⟨(getTransactions_failfast_c3 okClient 0 0).1 [recW] rfl 0 (by decide),
   (getTransactions_failfast_c3 failClient 2 2).2 (blockErrMsg 2 "netfail") rfl⟩

/-- Every row of the joined dataset has its three token-side columns all null
(no matching log) or all non-null (built from one matched log record, which
carries all three fields). -/
theorem token_fields_cases (ts : List TransactionRecord) (ls : List TransferLogRecord)
    (r : UnifiedRow) (hr : r ∈ leftJoin ts ls) :
    (r.log_from_address = none ∧ r.log_to_address = none ∧ r.log_value_usdt = none) ∨
    (r.log_from_address.isSome = true ∧ r.log_to_address.isSome = true ∧
      r.log_value_usdt.isSome = true) := by
  rw [leftJoin, List.mem_flatMap] at hr
  obtain ⟨t, _ht, hr⟩ := hr
  unfold joinRows at hr
  cases hm : logMatches ls t with
  | nil =>
    rw [hm] at hr
    simp only [List.mem_singleton] at hr
    subst hr
    exact Or.inl ⟨rfl, rfl, rfl⟩
  | cons m ms =>
    rw [hm] at hr
    simp only [List.mem_map] at hr
    obtain ⟨l, _hl, hr⟩ := hr
    subst hr
    exact Or.inr ⟨rfl, rfl, rfl⟩

/-- Filtering on the token value column alone coincides with filtering on all
three token-side columns being non-null. -/
theorem tokenOnly_filter_eq (ts : List TransactionRecord) (ls : List TransferLogRecord) :
    tokenOnly (leftJoin ts ls) =
      (leftJoin ts ls).filter (fun r =>
        r.log_from_address.isSome && r.log_to_address.isSome && r.log_value_usdt.isSome) := by
  unfold tokenOnly
  apply List.filter_congr
  intro r hr
  rcases token_fields_cases ts ls r hr with ⟨h1, h2, h3⟩ | ⟨h1, h2, h3⟩ <;>
    simp [h1, h2, h3]

/-- C1: the joiner output is a left outer join on (block_number, timestamp,
transaction_hash) — the unified rows are exactly the per-transaction join
rows, every transaction produces at least one row, a transaction with no
matching log produces exactly the one row with null token-side columns, and
tokenOnly is exactly the subset of unified rows with non-null token-side
columns. -/
theorem leftJoin_left_outer_c1 (ts : List TransactionRecord) (ls : List TransferLogRecord) :
    leftJoin ts ls = ts.flatMap (joinRows ls) ∧
    (∀ t ∈ ts, 1 ≤ (joinRows ls t).length) ∧
    (∀ t, logMatches ls t = [] →
      joinRows ls t = [mkURow t none] ∧
      (mkURow t none).log_from_address = none ∧
      (mkURow t none).log_to_address = none ∧
      (mkURow t none).log_value_usdt = none) ∧
    tokenOnly (leftJoin ts ls) =
      (leftJoin ts ls).filter (fun r =>
        r.log_from_address.isSome && r.log_to_address.isSome && r.log_value_usdt.isSome) := by
  refine ⟨rfl, ?_, ?_, tokenOnly_filter_eq ts ls⟩
  · intro t _ht
    unfold joinRows
    cases hm : logMatches ls t
    all_goals simp
  · intro t hm
    unfold joinRows
    rw [hm]
    exact ⟨rfl, rfl, rfl, rfl⟩

/-- C1 witness: the left-outer-join shape at a one-transaction input with no
logs. -/
theorem leftJoin_left_outer_c1_witness :
    1 ≤ (joinRows ([] : List TransferLogRecord) cT1).length ∧
    joinRows ([] : List TransferLogRecord) cT1 = [mkURow cT1 none] ∧
    (mkURow cT1 none).log_value_usdt = none :=
  ⟨(leftJoin_left_outer_c1 [cT1] []).2.1 cT1 (List.mem_singleton.mpr rfl),
   ((leftJoin_left_outer_c1 [cT1] []).2.2.1 cT1 rfl).1,
   ((leftJoin_left_outer_c1 [cT1] []).2.2.1 cT1 rfl).2.2.2⟩

/-- C9: in every unified row the three token-side columns are all null or all
non-null together, so the pipeline filter on the token value column alone
(`WHERE log_value_usdt IS NOT NULL`) selects exactly the rows whose
token-side columns are all non-null. -/
theorem tokenFields_all_or_none_c9 (ts : List TransactionRecord)
    (ls : List TransferLogRecord) (r : UnifiedRow) (hr : r ∈ leftJoin ts ls) :
    ((r.log_from_address = none ∧ r.log_to_address = none ∧ r.log_value_usdt = none) ∨
     (r.log_from_address.isSome = true ∧ r.log_to_address.isSome = true ∧
       r.log_value_usdt.isSome = true)) ∧
    (leftJoin ts ls).filter (fun x => x.log_value_usdt.isSome) =
      (leftJoin ts ls).filter (fun x =>
        x.log_from_address.isSome && x.log_to_address.isSome && x.log_value_usdt.isSome) :=
  ⟨token_fields_cases ts ls r hr, tokenOnly_filter_eq ts ls⟩

/-- C9 witness: the all-or-none invariant at the concrete unmatched row of
`cT1`. -/
theorem tokenFields_all_or_none_c9_witness :
    ((mkURow cT1 none).log_from_address = none ∧
      (mkURow cT1 none).log_to_address = none ∧
      (mkURow cT1 none).log_value_usdt = none) ∨
    ((mkURow cT1 none).log_from_address.isSome = true ∧
      (mkURow cT1 none).log_to_address.isSome = true ∧
      (mkURow cT1 none).log_value_usdt.isSome = true) :=
  (tokenFields_all_or_none_c9 [cT1] [] (mkURow cT1 none)
    (List.mem_singleton.mpr rfl)).1

/-- C4: the time-between-blocks query is the lag over the
(block_number, timestamp)-grouped, max-aggregated, block-ordered rows, the
anomaly query flags exactly the gaps strictly greater than 12 seconds, and on
the synthetic blocks with epoch timestamps [100, 105, 130, 131] the grouped
rows, the computed diffs [0, 5, 25, 1] and the single flagged 25-second gap
come out as the claim states. -/
theorem timeBetweenBlocks_c4 :
    (∀ rows, timeBetweenBlocks rows = lagRows (groupedData rows) none) ∧
    (∀ rows, blockTimesMonitoring rows =
      (timeBetweenBlocks rows).filter (fun d => decide (12 < d.time_diff_in_seconds))) ∧
    (groupedData c4Rows).map (fun g => (g.block_number, g.unix_timestamp)) =
      [(1, 100), (2, 105), (3, 130), (4, 131)] ∧
    (timeBetweenBlocks c4Rows).map (fun d => d.time_diff_in_seconds) = [0, 5, 25, 1] ∧
    (blockTimesMonitoring c4Rows).map
      (fun d => (d.block_number, d.time_diff_in_seconds)) = [(3, 25)] := by
  refine ⟨fun _ => rfl, fun _ => rfl, ?_, ?_, ?_⟩ <;> decide

/-- C10: a failed connectivity check only changes the printed status line —
the pipeline (head-block lookup, both extractions, join and filter) runs
unconditionally afterwards, and on a disconnected client with working fetch
capabilities it still produces its datasets rather than aborting. -/
theorem connectivity_no_abort_c10 (c : Client) (h : c.connected = false) :
    runMain c = ("❌ Connection failed\n", runPipeline c) ∧
    dcClient.connected = false ∧
    runMain dcClient = ("❌ Connection failed\n",
      Except.ok { unified := [], tokenRows := [] }) := by
  refine ⟨?_, rfl, rfl⟩
  unfold runMain connectivityLine
  rw [h]
  simp

/-- C10 witness: the no-abort behaviour at the concrete disconnected client. -/
theorem connectivity_no_abort_c10_witness :
    runMain dcClient = ("❌ Connection failed\n", runPipeline dcClient) ∧
    dcClient.connected = false ∧
    runMain dcClient = ("❌ Connection failed\n",
      Except.ok { unified := [], tokenRows := [] }) :=
  connectivity_no_abort_c10 dcClient rfl

/-- Membership in a stable insertion. -/
theorem mem_insertOrd {α : Type} (le : α → α → Bool) (x a : α) (l : List α) :
    a ∈ insertOrd le x l ↔ a = x ∨ a ∈ l := by
  induction l with
  | nil => simp [insertOrd]
  | cons y ys ih =>
    cases h : le x y
    all_goals simp [insertOrd, h, ih]
    all_goals tauto

/-- Stable insertion preserves sortedness for a transitive total comparison. -/
theorem pairwise_insertOrd {α : Type} (le : α → α → Bool)
    (htrans : ∀ a b c, le a b = true → le b c = true → le a c = true)
    (htot : ∀ a b, le a b = true ∨ le b a = true) (x : α) :
    ∀ l : List α, l.Pairwise (fun a b => le a b = true) →
      (insertOrd le x l).Pairwise (fun a b => le a b = true) := by
  intro l
  induction l with
  | nil => intro _; simp [insertOrd]
  | cons y ys ih =>
    intro hl
    rw [List.pairwise_cons] at hl
    obtain ⟨hy, hys⟩ := hl
    cases h : le x y with
    | true =>
      simp only [insertOrd, h, if_true]
      rw [List.pairwise_cons]
      refine ⟨?_, ?_⟩
      · intro z hz
        rcases List.mem_cons.1 hz with rfl | hz2
        · exact h
        · exact htrans x y z h (hy z hz2)
      · rw [List.pairwise_cons]
        exact ⟨hy, hys⟩
    | false =>
      simp only [insertOrd, h, Bool.false_eq_true, if_false]
      rw [List.pairwise_cons]
      refine ⟨?_, ih hys⟩
      intro z hz
      rcases (mem_insertOrd le x z ys).1 hz with hzx | hz2
      · subst hzx
        rcases htot z y with hxy | hyx
        · rw [h] at hxy
          cases hxy
        · exact hyx
      · exact hy z hz2

/-- The stable sort is sorted for a transitive total comparison. -/
theorem pairwise_orderBy {α : Type} (le : α → α → Bool)
    (htrans : ∀ a b c, le a b = true → le b c = true → le a c = true)
    (htot : ∀ a b, le a b = true ∨ le b a = true) :
    ∀ l : List α, (orderBy le l).Pairwise (fun a b => le a b = true) := by
  intro l
  induction l with
  | nil => simp [orderBy]
  | cons x xs ih => exact pairwise_insertOrd le htrans htot x (orderBy le xs) ih

/-- Stable insertion adds one element. -/
theorem length_insertOrd {α : Type} (le : α → α → Bool) (x : α) :
    ∀ l : List α, (insertOrd le x l).length = l.length + 1 := by
  intro l
  induction l with
  | nil => rfl
  | cons y ys ih => cases h : le x y <;> simp [insertOrd, h, ih]

/-- The stable sort preserves length. -/
theorem length_orderBy {α : Type} (le : α → α → Bool) :
    ∀ l : List α, (orderBy le l).length = l.length := by
  intro l
  induction l with
  | nil => rfl
  | cons x xs ih => simp [orderBy, length_insertOrd, ih]

/-- The display-value comparison is transitive. -/
theorem rowLE_trans : ∀ a b c : UnifiedRow,
    rowLE a b = true → rowLE b c = true → rowLE a c = true := by
  intro a b c hab hbc
  simp only [rowLE, decide_eq_true_eq] at hab hbc ⊢
  exact le_trans hbc hab

/-- The display-value comparison is total. -/
theorem rowLE_total : ∀ a b : UnifiedRow, rowLE a b = true ∨ rowLE b a = true := by
  intro a b
  simp only [rowLE, decide_eq_true_eq]
  exact le_total b.tx_value_eth a.tx_value_eth

/-- C5 (amended): the top-10 query returns the 10-prefix of the stable
descending sort of the unified rows by the rounded display column
`tx_value_eth` (ties left in input order), its output is sorted descending by
that display value, and the display columns are derived by rounding while the
raw gas-used and epoch-timestamp columns pass through unchanged — the raw
native value itself is not carried into the unified row, only its rounding. -/
theorem txValueTop10_amended_c5 (rows : List UnifiedRow) :
    txValueTop10 rows = (orderBy rowLE rows).take 10 ∧
    (txValueTop10 rows).Pairwise (fun a b => b.tx_value_eth ≤ a.tx_value_eth) ∧
    (txValueTop10 rows).length = min 10 rows.length ∧
    (∀ t l, (mkURow t l).tx_value_eth = sparkRound t.value 2 ∧
      (mkURow t l).tx_gas_used = t.gas_used ∧
      (mkURow t l).unix_timestamp = t.timestamp) := by
  refine ⟨rfl, ?_, ?_, fun t l => ⟨rfl, rfl, rfl⟩⟩
  · have h := pairwise_orderBy rowLE rowLE_trans rowLE_total rows
    have h2 := List.Pairwise.sublist (List.take_sublist 10 (orderBy rowLE rows)) h
    exact h2.imp fun hab => of_decide_eq_true hab
  · rw [txValueTop10, List.length_take, length_orderBy]

/-- C5, counterexample: with raw native values 5.001 (first) and 5.004
(second), both display as 5.00 after the 2-decimal rounding, so the query —
which orders by the rounded column — returns the 5.001 row before the 5.004
row even though their native values are not tied and the larger one should
come first under ordering by native value. -/
theorem txValueTop10_cex_c5 :
    (txValueTop10 c5Rows).map (fun r => r.transaction_hash) = ["0xh1", "0xh2"] ∧
    cT1.transaction_hash = "0xh1" ∧ cT2.transaction_hash = "0xh2" ∧
    cT1.value < cT2.value := by
  have hv1 : (mkURow cT1 none).tx_value_eth = 5 := by
    show sparkRound ((5001 : ℚ)/1000) 2 = 5
    unfold sparkRound
    rw [ratFloor_eq]
    norm_num
  have hv2 : (mkURow cT2 none).tx_value_eth = 5 := by
    show sparkRound ((5004 : ℚ)/1000) 2 = 5
    unfold sparkRound
    rw [ratFloor_eq]
    norm_num
  have hle : rowLE (mkURow cT1 none) (mkURow cT2 none) = true := by
    unfold rowLE
    rw [hv1, hv2]
    simp
  have hsort : txValueTop10 c5Rows = [mkURow cT1 none, mkURow cT2 none] := by
    show (insertOrd rowLE (mkURow cT1 none) [mkURow cT2 none]).take 10 = _
    unfold insertOrd
    rw [hle]
    simp
  rw [hsort]
  refine ⟨rfl, rfl, rfl, ?_⟩
  show (5001 : ℚ)/1000 < 5004/1000
  norm_num

/-- C7: the burn query counts exactly the tokenOnly rows whose receiver is
the all-zero address and whose sender is not, and in the two-row scenario
(one burn from 0xAAA, one self-transfer at the zero address) it counts
exactly 1. -/
theorem burnCount_c7 :
    (∀ ts ls, burnCount (tokenOnly (leftJoin ts ls)) =
      ((tokenOnly (leftJoin ts ls)).filter (fun r =>
        decide (r.log_to_address = some zeroAddress ∧
          ¬ r.log_from_address = some zeroAddress))).length) ∧
    burnCount (tokenOnly (leftJoin burnTxs burnLogs)) = 1 := by
  constructor
  · intro ts ls
    unfold burnCount
    congr 1
    apply List.filter_congr
    intro r hr
    have hrj : r ∈ leftJoin ts ls := List.mem_of_mem_filter hr
    have hv : r.log_value_usdt.isSome = true := by
      simpa using (List.mem_filter.1 hr).2
    rcases token_fields_cases ts ls r hrj with ⟨_h1, _h2, h3⟩ | ⟨h1, _h2, _h3⟩
    · simp [h3] at hv
    · obtain ⟨f, hf⟩ := Option.isSome_iff_exists.1 h1
      cases hto : r.log_to_address with
      | none => simp [sqlEq, sqlNe, hto, hf]
      | some g =>
        by_cases hg : g = zeroAddress <;> by_cases hf2 : f = zeroAddress <;>
          simp [sqlEq, sqlNe, hto, hf, hg, hf2]
  · decide

/-- Hex encoding distributes over concatenation of byte strings. -/
theorem bytesHex_append (xs ys : List ℕ) :
    bytesHex (xs ++ ys) = bytesHex xs ++ bytesHex ys := by
  simp [bytesHex]

/-- Hex encoding yields two characters per byte. -/
theorem bytesHex_length (bs : List ℕ) : (bytesHex bs).length = 2 * bs.length := by
  induction bs with
  | nil => rfl
  | cons b rest ih =>
    simp only [bytesHex, List.flatMap_cons, List.length_append, List.length_cons] at *
    simp [byteHex, ih]
    omega

/-- For a 32-byte topic, the last 40 hex characters are exactly the hex
encoding of its low 20 bytes. -/
theorem lastChars_low20 (t : List ℕ) (h : t.length = 32) :
    lastChars 40 (bytesHex t) = bytesHex (t.drop 12) := by
  have hlen : (bytesHex t).length - 40 = (bytesHex (t.take 12)).length := by
    simp [bytesHex_length, List.length_take, h]
  unfold lastChars
  rw [hlen]
  rw [show bytesHex t = bytesHex (t.take 12) ++ bytesHex (t.drop 12) by
    rw [← bytesHex_append, List.take_append_drop]]
  exact List.drop_left _ _

/-- C8 (amended): for well-formed 32-byte topics, the decoded sender and
receiver addresses are exactly 0x followed by the hex of the low 20 bytes of
topics 1 and 2, and the stored token value is the big-endian parse of the
data payload scaled by the declared decimal factor 10^6 and then rounded to
2 decimal places. -/
theorem decodeLog_amended_c8 (c : Client) (log : LogEntry) (blk : BlockData)
    (t0 t1 t2 : List ℕ) (rest : List (List ℕ))
    (htop : log.topics = t0 :: t1 :: t2 :: rest)
    (h1 : t1.length = 32) (h2 : t2.length = 32)
    (hb : c.getBlock log.blockNumber = .ok blk) :
    decodeLog c log = .ok
      { block_number := log.blockNumber
        timestamp := blk.timestamp
        from_address := "0x" ++ String.mk (bytesHex (t1.drop 12))
        to_address := "0x" ++ String.mk (bytesHex (t2.drop 12))
        value_usdt := roundHalfEven (toDecimalUnits (bytesBE log.data) 6) 2
        transaction_hash := log.transactionHash } := by
  unfold decodeLog
  rw [hb, htop]
  simp only [topicAddress, lastChars_low20 t1 h1, lastChars_low20 t2 h2]
  rfl

/-- C8, counterexample: on a log whose data payload is the single byte 0x01
(raw amount 1), the pipeline stores the token value 0 — the 2-decimal
rounding of main.py line 94 — which differs from the big-endian parse scaled
by the declared decimal factor, 1/10^6. -/
theorem decodeLog_value_cex_c8 :
    getLogsTether cexClient8 0 0 = .ok [cexRec8] ∧
    cexRec8.value_usdt = 0 ∧
    ¬ toDecimalUnits (bytesBE cexLog8.data) 6 = 0 := by
  refine ⟨?_, rfl, ?_⟩
  · have ha : topicAddress cexTopicZero = zeroAddress := by decide
    have hv : tokenValueUsdt (bytesBE cexLog8.data) = 0 := by
      show tokenValueUsdt 1 = 0
      exact tokenValueUsdt_one
    show processLogs cexClient8 [cexLog8] = .ok [cexRec8]
    have hd : decodeLog cexClient8 cexLog8 = .ok cexRec8 := by
      show Except.ok
          ({ block_number := 0, timestamp := 100,
             from_address := topicAddress cexTopicZero,
             to_address := topicAddress cexTopicZero,
             value_usdt := tokenValueUsdt (bytesBE cexLog8.data),
             transaction_hash := "0xlog1" } : TransferLogRecord) = Except.ok cexRec8
      rw [ha, hv]
      rfl
    simp only [processLogs, hd]
  · show ¬ toDecimalUnits 1 6 = 0
    unfold toDecimalUnits
    norm_num

/-- C8 witness: the decoding characterization at a concrete log whose topics
carry 0xaa and 0xbb payload addresses. -/
theorem decodeLog_amended_c8_witness :
    decodeLog clientW8 logW = .ok
      { block_number := 7
        timestamp := 500
        from_address := "0x" ++ String.mk (bytesHex (t1W.drop 12))
        to_address := "0x" ++ String.mk (bytesHex (t2W.drop 12))
        value_usdt := roundHalfEven (toDecimalUnits (bytesBE logW.data) 6) 2
        transaction_hash := "0xlogW" } :=
  decodeLog_amended_c8 clientW8 logW { timestamp := 500, transactions := [] }
    [] t1W t2W [] rfl (by decide) (by decide) rfl

end EthSpark
